import Mathlib

/-!
BIS-tracker: a verification development of the crawl/diff core.

Shallow embedding of the change-detection and crawl-orchestration core of
the BIS-tracker repository (`src/scraper.py`), together with theorems
settling the frozen specification claims.

The embedding mirrors the Python source:

* `norm` — whitespace normalization (`scraper.py:83`);
* `filter_row` — authority/phase/type business filter (`scraper.py:156`);
* `computeDelta` — the delta engine (`scraper.py:220`), over an
  association-list model of Python's `dict`;
* failed-page queue operations (`scraper.py:180-218`);
* the circuit-breaker window (`scraper.py:370,428-449`), using `ℚ` for
  the error-ratio threshold;
* `runOnce` — a single run of `main()`'s orchestration loop
  (`scraper.py:313-544`), abstracting real time (the wall-clock deadline
  and sleep durations are not modelled; the run budget is treated as
  ample) and page fetching (a run sees a fixed status per page).
-/

namespace BisTracker

/-! Section: Normalization (`norm`, `scraper.py:83-87`)

Python's `norm` replaces NBSP with a space, collapses every `\s+` run to a
single space and strips the ends.  This is equivalent to splitting on
whitespace, dropping empty tokens and re-joining with single spaces. -/

/-- The whitespace characters recognized by Python's `\s` on the ASCII
range (NBSP is replaced by `' '` before the regex runs). -/
def pythonWs (c : Char) : Bool :=
  c = ' ' || c = '\t' || c = '\n' || c = '\r' || c = '\x0b' || c = '\x0c'

/-- The no-break space `" "` (`scraper.py:82`). -/
def nbsp : Char := ' '

/-- Split a character list into its maximal runs of non-whitespace
characters (NBSP counting as whitespace, per the NBSP → `' '` replacement
that precedes the regex in `norm`); `acc` holds the current run reversed. -/
def normSplit : List Char → List Char → List (List Char)
  | [], acc => if acc.isEmpty then [] else [acc.reverse]
  | c :: cs, acc =>
    if pythonWs c || c = nbsp then
      if acc.isEmpty then normSplit cs [] else acc.reverse :: normSplit cs []
    else normSplit cs (c :: acc)

/-- Python `norm` (`scraper.py:83`): NBSP → space, collapse every
whitespace run to a single space, strip the ends.  Replacing NBSP by a
space and then collapsing/stripping is the same as splitting on
whitespace-or-NBSP, dropping empty tokens and re-joining with single
spaces, which is how it is written here (structurally, so that the kernel
can evaluate it). -/
def norm (s : String) : String :=
  String.mk (List.intercalate [' '] (normSplit s.data []))

/-! Section: Whitelists (`scraper.py:46-91`) -/

/-- Constant `AUTHORITIES_WHITELIST` (`scraper.py:46`). -/
def authoritiesWhitelist : List String :=
  [ "RĪGAS VALSTSPILSĪTAS PAŠVALDĪBAS PILSĒTAS ATTĪSTĪBAS DEPARTAMENTS",
    "Ādažu novada būvvalde",
    "Saulkrastu novada būvvalde",
    "Ropažu novada pašvaldības būvvalde",
    "Siguldas novada būvvalde",
    "Salaspils novada pašvaldības iestāde \"Salaspils novada Būvvalde\"",
    "Ogres novada pašvaldības centrālās administrācijas Ogres novada būvvalde",
    "Ķekavas novada pašvaldības būvvalde",
    "OLAINES NOVADA PAŠVALDĪBAS BŪVVALDE",
    "Mārupes novada Būvvalde",
    "Jūrmalas Būvvalde" ]

/-- Constant `PHASE_KEEP` (`scraper.py:59`). -/
def phaseKeep : List String :=
  [ "Iecere",
    "Būvniecības ieceres publiskā apspriešana",
    "Projektēšanas nosacījumu izpilde",
    "Būvdarbu uzsākšanas nosacījumu izpilde" ]

/-- Constant `TYPE_KEEP` (`scraper.py:65`). -/
def typeKeep : List String :=
  [ "Atjaunošana",
    "Vienkāršota atjaunošana",
    "Jauna būvniecība",
    "Pārbūve",
    "Vienkāršota pārbūve" ]

/-- Mapping `AUTHORITIES_NORM` (`scraper.py:89`): normalized authority → original
whitelist string. -/
def authNormPairs : List (String × String) :=
  authoritiesWhitelist.map (fun a => (norm a, a))

/-- Dictionary lookup in `AUTHORITIES_NORM`. -/
def authLookup (k : String) : Option String :=
  (authNormPairs.find? (fun p => p.1 = k)).map (fun p => p.2)

/-- Constant `PHASE_KEEP_NORM` (`scraper.py:90`). -/
def phaseKeepNorm : List String := phaseKeep.map norm

/-- Constant `TYPE_KEEP_NORM` (`scraper.py:91`). -/
def typeKeepNorm : List String := typeKeep.map norm

/-! Section: Records and the business filter (`filter_row`, `scraper.py:156-166`) -/

/-- A parsed row as handed to `filter_row` / `compute_delta`: the `_key`
plus the extracted string fields (a missing Python dict key is the empty
string). -/
structure InRecord where
  key : String
  bis_number : String := ""
  authority : String := ""
  address : String := ""
  object : String := ""
  phase : String := ""
  construction_type : String := ""
  details_url : String := ""
deriving DecidableEq, Repr

/-- Predicate `filter_row` (`scraper.py:156`): authority must normalize into the
whitelist; phase and construction type are each checked against their
whitelist only when non-empty. -/
def filter_row (r : InRecord) : Bool :=
  let auth_n := norm r.authority
  if (authLookup auth_n).isSome then
    let phase_n := norm r.phase
    if phase_n ≠ "" && !(phaseKeepNorm.contains phase_n) then false
    else
      let type_n := norm r.construction_type
      if type_n ≠ "" && !(typeKeepNorm.contains type_n) then false
      else true
  else false

/-! Section: Dictionary model

Python `dict[str, entry]` as an association list with unique keys kept in
insertion order; `dictInsert` updates in place or appends. -/

/-- Lookup (`d.get(k)`). -/
def dictGet {α : Type} (m : List (String × α)) (k : String) : Option α :=
  (m.find? (fun p => p.1 = k)).map (fun p => p.2)

/-- Update-or-append (`d[k] = v`). -/
def dictInsert {α : Type} (m : List (String × α)) (k : String) (v : α) :
    List (String × α) :=
  match m with
  | [] => [(k, v)]
  | p :: rest => if p.1 = k then (k, v) :: rest else p :: dictInsert rest k v

theorem dictGet_insert_self {α : Type} (m : List (String × α)) (k : String) (v : α) :
    dictGet (dictInsert m k v) k = some v := by
  induction m with
  | nil => simp [dictInsert, dictGet, List.find?]
  | cons p rest ih =>
    by_cases h : p.1 = k
    · simp [dictInsert, h, dictGet, List.find?]
    · simp only [dictInsert, if_neg h]
      simpa [dictGet, List.find?, h] using ih

theorem dictGet_insert_ne {α : Type} (m : List (String × α)) (k k' : String) (v : α)
    (h : k' ≠ k) : dictGet (dictInsert m k v) k' = dictGet m k' := by
  have h' : k ≠ k' := Ne.symm h
  induction m with
  | nil => simp [dictInsert, dictGet, List.find?, h']
  | cons p rest ih =>
    by_cases hp : p.1 = k
    · subst hp
      simp [dictInsert, dictGet, List.find?, h']
    · simp only [dictInsert, if_neg hp]
      by_cases hp' : p.1 = k'
      · simp [dictGet, List.find?, hp']
      · simpa [dictGet, List.find?, hp'] using ih

/-! Section: The delta engine (`compute_delta`, `scraper.py:220-251`) -/

/-- The per-record snapshot `current` built at `scraper.py:231-240`. -/
structure Snapshot where
  bis_number : String
  authority : String
  address : String
  object : String
  phase : String
  construction_type : String
  details_url : String
  last_seen : String
deriving DecidableEq, Repr

/-- A state-store entry: the snapshot plus `first_seen`. -/
structure StateEntry extends Snapshot where
  first_seen : String
deriving DecidableEq, Repr

/-- A change-list item `{**current, "_key": key, "_change": tag}`. -/
structure ChangeRecord extends Snapshot where
  key : String
  change : String
deriving DecidableEq, Repr

/-- The state store: identity key → `StateEntry` (Python dict). -/
abbrev StateMap := List (String × StateEntry)

/-- Snapshot `current` for one record (`scraper.py:227-240`): normalized phase and
type, authority canonicalized through `AUTHORITIES_NORM` with the raw
value as fallback. -/
def currentOf (r : InRecord) (today : String) : Snapshot :=
  { bis_number := r.bis_number
    authority := (authLookup (norm r.authority)).getD r.authority
    address := r.address
    object := r.object
    phase := norm r.phase
    construction_type := norm r.construction_type
    details_url := r.details_url
    last_seen := today }

/-- The phase-change tag `f"Stadija: {old.get('phase','?')} → {phase_n or '?'}"`
(`scraper.py:248`); an empty new phase renders as `"?"`. -/
def changeTag (oldPhase newPhase : String) : String :=
  "Stadija: " ++ oldPhase ++ " → " ++ (if newPhase = "" then "?" else newPhase)

/-- One iteration of the `for r in filtered_rows` loop of `compute_delta`
(`scraper.py:225-250`). -/
def deltaStep (today : String) (baseline : Bool)
    (acc : List ChangeRecord × StateMap) (r : InRecord) :
    List ChangeRecord × StateMap :=
  let cur := currentOf r today
  match dictGet acc.2 r.key with
  | none =>
      let delta' := if baseline then acc.1
        else acc.1 ++ [{ toSnapshot := cur, key := r.key, change := "Jauns" }]
      (delta', dictInsert acc.2 r.key { toSnapshot := cur, first_seen := today })
  | some old =>
      let delta' := if old.phase ≠ cur.phase then
          acc.1 ++ [{ toSnapshot := cur, key := r.key,
                      change := changeTag old.phase cur.phase }]
        else acc.1
      (delta', dictInsert acc.2 r.key { toSnapshot := cur, first_seen := old.first_seen })

/-- Function `compute_delta` (`scraper.py:220`): returns `(delta, updated, baseline)`.
The run date (`datetime.now().strftime(...)`, `scraper.py:222`) is passed
in as `today`. -/
def computeDelta (prev : StateMap) (rows : List InRecord) (today : String) :
    List ChangeRecord × StateMap × Bool :=
  let baseline := prev.length == 0
  let out := rows.foldl (deltaStep today baseline) ([], prev)
  (out.1, out.2, baseline)

/-! Section: Configuration (`scraper.py:12-32`)

The environment-configurable constants that the orchestration core reads.
`ERROR_BAIL_THRESHOLD` is a Python float; it is modelled as a rational. -/

/-- The configuration surface of the crawl core (`scraper.py:12-32`). -/
structure Config where
  targetMaxPage : Nat := 3000
  pagesPerRun : Nat := 2500
  deltaScanPages : Nat := 3000
  frontRefreshPages : Nat := 0
  errorBailWindow : Nat := 30
  errorBailThreshold : ℚ := 4/5
  stormCooldownsMax : Nat := 2
  failedPageRetryLimit : Nat := 400
  failedPageMaxAttempts : Nat := 8

/-! Section: Failed-page queue (`scraper.py:180-218`) -/

/-- One persisted failed-page entry `{"n": page, "attempts": count}`. -/
structure FailedEntry where
  n : Nat
  attempts : Nat
deriving DecidableEq, Repr

/-- Function `load_failed_queue` (`scraper.py:180`): keep the first entry
for each page number, dropping later duplicates; `seen` carries the page
numbers already kept. -/
def loadFailedQueue : List FailedEntry → List Nat → List FailedEntry
  | [], _ => []
  | e :: rest, seen =>
    if seen.contains e.n then loadFailedQueue rest seen
    else e :: loadFailedQueue rest (e.n :: seen)

/-- Function `save_failed_queue` (`scraper.py:194`): persist only the
entries whose attempt counter is still below `FAILED_PAGE_MAX_ATTEMPTS`. -/
def saveFailedQueue (cfg : Config) (pages : List FailedEntry) : List FailedEntry :=
  pages.filter (fun p => p.attempts < cfg.failedPageMaxAttempts)

/-- Function `push_failed_page` (`scraper.py:198`): ignore pages beyond the
ceiling; bump the attempt counter of an existing entry (capped at the
maximum), else append a fresh entry with one attempt. -/
def pushFailedPage (cfg : Config) (pages : List FailedEntry) (n : Nat) :
    List FailedEntry :=
  if cfg.targetMaxPage < n then pages
  else go pages
where
  /-- The `for item in queue["pages"]` search-and-bump loop. -/
  go : List FailedEntry → List FailedEntry
    | [] => [⟨n, 1⟩]
    | e :: rest =>
      if e.n = n then
        { e with attempts := min (e.attempts + 1) cfg.failedPageMaxAttempts } :: rest
      else e :: go rest

/-- Function `pop_failed_batch` (`scraper.py:207`): walk the queue in
stored order, moving entries within the page ceiling into the batch until
`limit` of them are taken; everything else (out-of-scope entries and the
overflow) stays behind, in order.  `taken` counts `len(batch)` so far. -/
def popFailedBatch (cfg : Config) (limit : Nat) :
    List FailedEntry → Nat → List FailedEntry × List FailedEntry
  | [], _ => ([], [])
  | e :: rest, taken =>
    if taken < limit then
      if e.n ≤ cfg.targetMaxPage then
        let out := popFailedBatch cfg limit rest (taken + 1)
        (e :: out.1, out.2)
      else
        let out := popFailedBatch cfg limit rest taken
        (out.1, e :: out.2)
    else
      let out := popFailedBatch cfg limit rest taken
      (out.1, e :: out.2)

/-! Section: Circuit breaker (`scraper.py:370,428-449`)

`recent_flags` is a `deque(maxlen=ERROR_BAIL_WINDOW)` of error flags
(`True` = error page).  `maybe_cooldown` trips when the window is full and
the error ratio reaches the threshold; it then either takes a cooldown
(clearing the window) or bails out of the run.  The sleep itself and the
remaining-time check that can force the bail branch early are wall-clock
behaviour and are not modelled: the run budget is treated as ample. -/

/-- Append to a `deque(maxlen=N)`: the oldest flags are dropped so that at
most the last `N` survive. -/
def dequeAppend (bound : Nat) (w : List Bool) (x : Bool) : List Bool :=
  let w' := w ++ [x]
  w'.drop (w'.length - bound)

/-- The number of set flags in the window (`sum(recent_flags)`). -/
def errCount (w : List Bool) : Nat := w.countP (fun b => b)

/-- The trip condition of `maybe_cooldown` (`scraper.py:431`): the window
is full and the error ratio is at least the threshold. -/
def stormCondB (cfg : Config) (w : List Bool) : Bool :=
  (w.length == cfg.errorBailWindow) &&
    decide (cfg.errorBailThreshold ≤ (errCount w : ℚ) / (w.length : ℚ))

/-! Section: Run orchestration (`main`, `scraper.py:313-544`) -/

/-- Outcome of `fetch_and_parse` for one page: `ok` with the page's total
row count, an empty page, or an error (retries exhausted / backend error
page).  A run is modelled against a fixed outcome per page index. -/
inductive PageStatus where
  | ok (rows : Nat)
  | empty
  | error
deriving DecidableEq, Repr

/-- Cursor document `{next_page, baseline_complete}` (`scraper.py:174`). -/
structure Cursor where
  nextPage : Nat
  baselineComplete : Bool
deriving DecidableEq, Repr

/-- The mutable per-run state threaded through the two scrape loops
(`scraper.py:366-372,452` and the `nonlocal`s of `maybe_cooldown`). -/
structure RunState where
  pagesFetched : Nat
  totalScanned : Nat
  consecEmpty : Nat
  errorPages : List Nat
  emptyPages : List Nat
  recentFlags : List Bool
  seqLastScanned : Nat
  stormCooldownsUsed : Nat
  queue : List FailedEntry
  baselineComplete : Bool
  bailed : Bool
  visited : List Nat
deriving DecidableEq, Repr

/-- Function `maybe_cooldown` (`scraper.py:428`): on a trip, either use a
cooldown (clear the window, count it) while the per-run cooldown budget
lasts, or mark the loop as bailed.  The deadline check that can force the
bail branch even within the budget is wall-clock behaviour, not modelled. -/
def maybeCooldown (cfg : Config) (st : RunState) : RunState :=
  if stormCondB cfg st.recentFlags then
    if st.stormCooldownsUsed < cfg.stormCooldownsMax then
      { st with stormCooldownsUsed := st.stormCooldownsUsed + 1, recentFlags := [] }
    else { st with bailed := true }
  else st

/-- One page of the failed-first pass (`scraper.py:453-480`): errors are
re-pushed and flagged; otherwise the page counts as fetched (its rows
accumulate for `ok`).  Empties do not touch `consec_empty` here. -/
def failedStep (cfg : Config) (w : Nat → PageStatus) (st : RunState) (n : Nat) :
    RunState :=
  let st := { st with visited := st.visited ++ [n] }
  let st :=
    match w n with
    | .error =>
        { st with queue := pushFailedPage cfg st.queue n,
                  errorPages := st.errorPages ++ [n],
                  recentFlags := dequeAppend cfg.errorBailWindow st.recentFlags true }
    | .empty =>
        { st with pagesFetched := st.pagesFetched + 1,
                  recentFlags := dequeAppend cfg.errorBailWindow st.recentFlags false }
    | .ok rows =>
        { st with pagesFetched := st.pagesFetched + 1,
                  totalScanned := st.totalScanned + rows,
                  recentFlags := dequeAppend cfg.errorBailWindow st.recentFlags false }
  maybeCooldown cfg st

/-- The failed-first loop (`scraper.py:453-480`): process the popped batch
pages in order; a circuit-breaker bail breaks the loop. -/
def failedPass (cfg : Config) (w : Nat → PageStatus) :
    List Nat → RunState → RunState
  | [], st => st
  | n :: rest, st =>
    if st.bailed then st
    else failedPass cfg w rest (failedStep cfg w st n)

/-- The sequential-window loop (`scraper.py:487-523`): skip pages already
visited by the failed-first pass; errors are pushed and flagged; during
baseline construction two `Empty` outcomes in a row (the counter is reset
by `Ok` but left alone by `Error`) complete the baseline and break the
loop; `Ok` pages advance `seq_last_scanned`.  A circuit-breaker bail
breaks the loop. -/
def seqPass (cfg : Config) (w : Nat → PageStatus) :
    List Nat → RunState → RunState
  | [], st => st
  | n :: rest, st =>
    if st.bailed then st
    else if st.visited.contains n then seqPass cfg w rest st
    else
      match w n with
      | .error =>
          let st := { st with queue := pushFailedPage cfg st.queue n,
                              errorPages := st.errorPages ++ [n],
                              recentFlags :=
                                dequeAppend cfg.errorBailWindow st.recentFlags true }
          seqPass cfg w rest (maybeCooldown cfg st)
      | .empty =>
          let st := { st with emptyPages := st.emptyPages ++ [n],
                              recentFlags :=
                                dequeAppend cfg.errorBailWindow st.recentFlags false,
                              pagesFetched := st.pagesFetched + 1 }
          if !st.baselineComplete then
            if st.consecEmpty + 1 ≥ 2 then
              { st with consecEmpty := st.consecEmpty + 1, baselineComplete := true }
            else
              seqPass cfg w rest
                (maybeCooldown cfg { st with consecEmpty := st.consecEmpty + 1 })
          else seqPass cfg w rest (maybeCooldown cfg st)
      | .ok rows =>
          let st := { st with
            consecEmpty := if !st.baselineComplete then 0 else st.consecEmpty,
            pagesFetched := st.pagesFetched + 1,
            totalScanned := st.totalScanned + rows,
            recentFlags := dequeAppend cfg.errorBailWindow st.recentFlags false,
            seqLastScanned := max st.seqLastScanned n }
          seqPass cfg w rest (maybeCooldown cfg st)

/-- The sequential window bounds (`scraper.py:355-360`): in SteadyState
rescan `[1, min(ceiling, DELTA_SCAN_PAGES)]`; while Building scan
`[max(1, next_page), min(ceiling, start + PAGES_PER_RUN - 1)]`. -/
def seqBounds (cfg : Config) (cursor : Cursor) : Nat × Nat :=
  if cursor.baselineComplete then (1, min cfg.targetMaxPage cfg.deltaScanPages)
  else
    let s := max 1 cursor.nextPage
    (s, min cfg.targetMaxPage (s + cfg.pagesPerRun - 1))

/-- The end-of-run cursor update (`scraper.py:531-542`): while the
baseline is still building, advance `next_page` to one past the highest
sequentially `Ok`-scanned page (or keep the loaded `next_page` if the
window produced no such page); crossing the ceiling completes the
baseline and wraps to 1.  Once complete, the cursor is pinned at
`{next_page: 1, baseline_complete: true}`. -/
def nextCursor (cfg : Config) (loadedNextPage seqStart : Nat) (st : RunState) :
    Cursor :=
  if !st.baselineComplete then
    let nxt := if seqStart ≤ st.seqLastScanned then st.seqLastScanned + 1
      else loadedNextPage
    if cfg.targetMaxPage < nxt then ⟨1, true⟩ else ⟨nxt, false⟩
  else ⟨1, true⟩

/-- The aggregate result of one run: the persisted cursor and failed-page
queue (`scraper.py:531-544`), the final loop state, and the sequential
window that was used. -/
structure RunResult where
  savedCursor : Cursor
  savedQueue : List FailedEntry
  final : RunState
  seqStart : Nat
  seqEnd : Nat
deriving Repr

/-- One run of `main` (`scraper.py:313-544`), for a fixed page → outcome
world `w`: load and pop the failed queue, assemble the failed-first list
(pages within `[1, ceiling]`), run the failed-first pass, run the
sequential window (restarting the breaker-bail flag, as the second loop in
the source runs even after the first bailed), then persist the cursor and
the surviving failed-queue entries.  Wall-clock budget and sleeps are not
modelled; the front-refresh pages (`scraper.py:350-353`) enter only the
build-time worklist in the source and are never iterated by either fetch
loop, so they do not appear here. -/
def runOnce (cfg : Config) (w : Nat → PageStatus) (cursor : Cursor)
    (rawQueue : List FailedEntry) : RunResult :=
  let queue0 := loadFailedQueue rawQueue []
  let popped := popFailedBatch cfg cfg.failedPageRetryLimit queue0 0
  let failedWork := (popped.1.map (fun e => e.n)).filter
    (fun n => 1 ≤ n && n ≤ cfg.targetMaxPage)
  let bounds := seqBounds cfg cursor
  let st0 : RunState :=
    { pagesFetched := 0, totalScanned := 0, consecEmpty := 0,
      errorPages := [], emptyPages := [], recentFlags := [],
      seqLastScanned := bounds.1 - 1, stormCooldownsUsed := 0,
      queue := popped.2, baselineComplete := cursor.baselineComplete,
      bailed := false, visited := [] }
  let st1 := failedPass cfg w failedWork st0
  let st2 := seqPass cfg w (List.range' bounds.1 (bounds.2 + 1 - bounds.1))
    { st1 with bailed := false }
  { savedCursor := nextCursor cfg cursor.nextPage bounds.1 st2,
    savedQueue := saveFailedQueue cfg st2.queue,
    final := st2,
    seqStart := bounds.1,
    seqEnd := bounds.2 }

/-! Section: projection lemmas for `runOnce` -/

/-- The final loop state a run reaches, before persistence. -/
def runFinalState (cfg : Config) (w : Nat → PageStatus) (cursor : Cursor)
    (rawQueue : List FailedEntry) : RunState :=
  (runOnce cfg w cursor rawQueue).final

theorem runOnce_savedQueue (cfg : Config) (w : Nat → PageStatus) (cursor : Cursor)
    (rawQueue : List FailedEntry) :
    (runOnce cfg w cursor rawQueue).savedQueue
      = saveFailedQueue cfg (runFinalState cfg w cursor rawQueue).queue := rfl

theorem runOnce_savedCursor (cfg : Config) (w : Nat → PageStatus) (cursor : Cursor)
    (rawQueue : List FailedEntry) :
    (runOnce cfg w cursor rawQueue).savedCursor
      = nextCursor cfg cursor.nextPage (seqBounds cfg cursor).1
          (runFinalState cfg w cursor rawQueue) := rfl

theorem runOnce_seqStart (cfg : Config) (w : Nat → PageStatus) (cursor : Cursor)
    (rawQueue : List FailedEntry) :
    (runOnce cfg w cursor rawQueue).seqStart = (seqBounds cfg cursor).1 := rfl

theorem runOnce_seqEnd (cfg : Config) (w : Nat → PageStatus) (cursor : Cursor)
    (rawQueue : List FailedEntry) :
    (runOnce cfg w cursor rawQueue).seqEnd = (seqBounds cfg cursor).2 := rfl

/-! Section: claim C7 — failed-page bounded retry -/

/-- Claim C7: every entry of the failed-page queue persisted at the end of
a run (`save_failed_queue`, `scraper.py:194-196`) has an attempt counter
strictly below `FAILED_PAGE_MAX_ATTEMPTS`: equivalently, a page whose
counter reached the configured maximum is absent from the persisted queue
after the run, even if the page kept failing during the run. -/
theorem C7_failed_page_bounded_retry (cfg : Config) (w : Nat → PageStatus)
    (cursor : Cursor) (rawQueue : List FailedEntry) (e : FailedEntry)
    (he : e ∈ (runOnce cfg w cursor rawQueue).savedQueue) :
    e.attempts < cfg.failedPageMaxAttempts := by
  rw [runOnce_savedQueue, saveFailedQueue] at he
  simpa using (List.mem_filter.mp he).2

/-- The configuration of the C7 witness run: a tiny ceiling, no
failed-first batch, and the default attempt maximum of 8. -/
def c7cfg : Config :=
  { targetMaxPage := 10, pagesPerRun := 2, failedPageRetryLimit := 0 }

/-- The world of the C7 witness run: page 1 keeps failing. -/
def c7w : Nat → PageStatus := fun n => if n = 1 then .error else .ok 1

/-- Witness for C7: a concrete run in which page 1, already at 3 attempts
in the loaded queue, fails again (attempts bumped to 4) and survives in
the persisted queue; the theorem instantiates to show its counter is
below the maximum. -/
theorem C7_failed_page_bounded_retry_witness :
    (⟨1, 4⟩ : FailedEntry).attempts < c7cfg.failedPageMaxAttempts :=
  C7_failed_page_bounded_retry c7cfg c7w ⟨1, false⟩ [⟨1, 3⟩] ⟨1, 4⟩ (by decide)

/-! Section: claim C8 — `pop_failed_batch` order -/

/-- Characterization of the `pop_failed_batch` loop: from an intermediate
batch count `taken`, the batch is the next `limit - taken` in-scope
entries in stored queue order, and batch plus remainder is a permutation
of the input queue. -/
theorem popFailedBatch_spec (cfg : Config) (limit : Nat) (pages : List FailedEntry)
    (taken : Nat) :
    (popFailedBatch cfg limit pages taken).1
      = (pages.filter (fun e => e.n ≤ cfg.targetMaxPage)).take (limit - taken) ∧
    ((popFailedBatch cfg limit pages taken).1
        ++ (popFailedBatch cfg limit pages taken).2).Perm pages := by
  induction pages generalizing taken with
  | nil => simp [popFailedBatch]
  | cons e rest ih =>
    by_cases h1 : taken < limit
    · by_cases h2 : e.n ≤ cfg.targetMaxPage
      · have hih := ih (taken + 1)
        have hcount : limit - taken = (limit - (taken + 1)) + 1 := by omega
        constructor
        · simp [popFailedBatch, h1, h2, hcount, hih.1]
        · simpa [popFailedBatch, h1, h2] using (hih.2).cons e
      · have hih := ih taken
        constructor
        · simp [popFailedBatch, h1, h2, hih.1]
        · simp only [popFailedBatch, if_pos h1, if_neg h2]
          exact List.Perm.trans List.perm_middle ((hih.2).cons e)
    · have hih := ih taken
      have hlim : limit - taken = 0 := by omega
      constructor
      · simp [popFailedBatch, h1, hlim, hih.1]
      · simp only [popFailedBatch, if_neg h1]
        exact List.Perm.trans List.perm_middle ((hih.2).cons e)

/-- Claim C8 (amended): `pop_failed_batch` removes and returns at most
`limit` entries, and the returned batch consists of the first in-scope
entries (page within the ceiling) in stored queue order — first-in
first-out, not lowest-attempt-first; batch and remainder together
repartition the queue. -/
theorem C8_pop_batch_fifo (cfg : Config) (limit : Nat) (pages : List FailedEntry) :
    (popFailedBatch cfg limit pages 0).1.length ≤ limit ∧
    (popFailedBatch cfg limit pages 0).1
      = (pages.filter (fun e => e.n ≤ cfg.targetMaxPage)).take limit ∧
    ((popFailedBatch cfg limit pages 0).1
        ++ (popFailedBatch cfg limit pages 0).2).Perm pages := by
  have h := popFailedBatch_spec cfg limit pages 0
  refine ⟨?_, by simpa using h.1, h.2⟩
  rw [h.1]
  simp only [Nat.sub_zero]
  exact List.length_take_le limit _

/-- Counterexample to C8 as stated: with queue `[{n:1, attempts:5},
{n:2, attempts:1}]` and `limit = 1`, the batch is the first stored entry
(5 attempts) while the strictly lower-attempt in-scope entry (1 attempt)
is left in the queue — the selection is not lowest-attempt-first. -/
theorem C8_counterexample :
    (popFailedBatch ({ targetMaxPage := 10 } : Config) 1 [⟨1, 5⟩, ⟨2, 1⟩] 0).1
        = [⟨1, 5⟩] ∧
    (popFailedBatch ({ targetMaxPage := 10 } : Config) 1 [⟨1, 5⟩, ⟨2, 1⟩] 0).2
        = [⟨2, 1⟩] ∧
    (1 : Nat) < 5 := by decide

/-! Section: claim C9 — circuit-breaker trip timing -/

/-- The breaker window contents after feeding a sequence of outcome flags
into an initially empty (or freshly cleared) `deque(maxlen=N)`. -/
def windowAfter (bound : Nat) (s : List Bool) : List Bool :=
  s.foldl (dequeAppend bound) []

/-- The last `bound` elements of a flag sequence. -/
def lastWindow (bound : Nat) (s : List Bool) : List Bool :=
  s.drop (s.length - bound)

theorem windowAfter_append_singleton (bound : Nat) (s : List Bool) (x : Bool) :
    windowAfter bound (s ++ [x]) = dequeAppend bound (windowAfter bound s) x := by
  simp [windowAfter, List.foldl_append]

/-- The deque really is the sliding window: after any outcome sequence its
contents are exactly the last `bound` outcomes. -/
theorem windowAfter_eq_lastWindow (bound : Nat) (s : List Bool) :
    windowAfter bound s = lastWindow bound s := by
  induction s using List.reverseRecOn with
  | nil => simp [windowAfter, lastWindow]
  | append_singleton s x ih =>
    rw [windowAfter_append_singleton, ih]
    simp only [lastWindow, dequeAppend]
    rcases Nat.lt_or_ge s.length bound with hlt | hge
    · have e1 : s.length - bound = 0 := by omega
      simp [e1]
    · have hdl : (s.drop (s.length - bound)).length = bound := by
        rw [List.length_drop]; omega
      have hL : (s.drop (s.length - bound) ++ [x]).length = bound + 1 := by
        rw [List.length_append, hdl]; rfl
      rw [hL]
      have e1 : bound + 1 - bound = 1 := by omega
      have e2 : (s ++ [x]).length - bound = (s.length - bound) + 1 := by
        rw [List.length_append]; simp; omega
      rw [e1, e2, List.drop_append_eq_append_drop, List.drop_append_eq_append_drop,
        List.drop_drop, hdl]
      have e4 : 1 - bound = (s.length - bound + 1) - s.length := by omega
      rw [e4]

theorem length_windowAfter (bound : Nat) (s : List Bool) :
    (windowAfter bound s).length = min s.length bound := by
  rw [windowAfter_eq_lastWindow, lastWindow, List.length_drop]; omega

theorem length_lastWindow_of_le (bound : Nat) (s : List Bool)
    (h : bound ≤ s.length) : (lastWindow bound s).length = bound := by
  rw [lastWindow, List.length_drop]; omega

/-- Claim C9: for a state whose breaker window holds the outcomes fed
since the last clear, `maybe_cooldown` reacts (takes a cooldown or bails,
i.e. does not leave the state untouched) exactly when at least `N`
outcomes have been seen and the error ratio over the last `N` of them is
at least the threshold; in particular it never reacts before `N` outcomes
have been observed since the window was last cleared. -/
theorem C9_breaker_trip_timing (cfg : Config) (s : List Bool) (st : RunState)
    (hw : st.recentFlags = windowAfter cfg.errorBailWindow s)
    (hb : st.bailed = false) :
    (maybeCooldown cfg st ≠ st ↔
      (cfg.errorBailWindow ≤ s.length ∧
        cfg.errorBailThreshold ≤
          (errCount (lastWindow cfg.errorBailWindow s) : ℚ) /
            (cfg.errorBailWindow : ℚ))) ∧
    (s.length < cfg.errorBailWindow → maybeCooldown cfg st = st) := by
  have hlen : st.recentFlags.length = min s.length cfg.errorBailWindow := by
    rw [hw, length_windowAfter]
  have hmain : stormCondB cfg st.recentFlags = true ↔
      (cfg.errorBailWindow ≤ s.length ∧
        cfg.errorBailThreshold ≤
          (errCount (lastWindow cfg.errorBailWindow s) : ℚ) /
            (cfg.errorBailWindow : ℚ)) := by
    rw [stormCondB, Bool.and_eq_true, beq_iff_eq, decide_eq_true_iff]
    constructor
    · rintro ⟨h1, h2⟩
      have hle : cfg.errorBailWindow ≤ s.length := by
        rw [hlen] at h1; omega
      refine ⟨hle, ?_⟩
      rw [hw, windowAfter_eq_lastWindow] at h2
      rwa [length_lastWindow_of_le _ _ hle] at h2
    · rintro ⟨h1, h2⟩
      constructor
      · rw [hlen]; omega
      · rw [hw, windowAfter_eq_lastWindow, length_lastWindow_of_le _ _ h1]
        exact h2
  have hreact : maybeCooldown cfg st ≠ st ↔ stormCondB cfg st.recentFlags = true := by
    constructor
    · intro hne
      by_contra hfalse
      have : stormCondB cfg st.recentFlags = false :=
        Bool.eq_false_iff.mpr (fun h => hfalse h)
      exact hne (by simp [maybeCooldown, this])
    · intro htrue
      rw [maybeCooldown, htrue]
      by_cases hc : st.stormCooldownsUsed < cfg.stormCooldownsMax
      · simp only [if_pos hc, if_true]
        intro heq
        have := congrArg RunState.stormCooldownsUsed heq
        simp at this
      · simp only [if_neg hc, if_true]
        intro heq
        have := congrArg RunState.bailed heq
        rw [hb] at this
        simp at this
  constructor
  · exact hreact.trans hmain
  · intro hshort
    by_contra hne
    have h := (hreact.trans hmain).mp hne
    omega

/-- The configuration of the C9 witness: window size 2, threshold 1/2. -/
def c9cfg : Config :=
  { errorBailWindow := 2, errorBailThreshold := 1/2 }

/-- The breaker state of the C9 witness: the window after outcomes
error, ok, error. -/
def c9st : RunState :=
  { pagesFetched := 0, totalScanned := 0, consecEmpty := 0,
    errorPages := [], emptyPages := [], recentFlags := [false, true],
    seqLastScanned := 0, stormCooldownsUsed := 0, queue := [],
    baselineComplete := false, bailed := false, visited := [] }

/-- Witness for C9: after the outcome sequence error, ok, error the
window of size 2 is full with error ratio 1/2 ≥ threshold 1/2, and
`maybe_cooldown` indeed reacts. -/
theorem C9_breaker_trip_timing_witness : maybeCooldown c9cfg c9st ≠ c9st := by
  have h := C9_breaker_trip_timing c9cfg [true, false, true] c9st (by decide) rfl
  refine h.1.mpr ⟨by decide, ?_⟩
  show (1 : ℚ)/2 ≤ (errCount (lastWindow 2 [true, false, true]) : ℚ) / (2 : ℚ)
  have he : errCount (lastWindow 2 [true, false, true]) = 1 := by decide
  rw [he]
  simp

/-! Section: delta-engine lemmas

The shapes a `compute_delta` iteration can produce: a seeded entry for a
new key (`scraper.py:245`), a merged entry replacing an existing snapshot
(`scraper.py:250`), a `Jauns` change (`scraper.py:244`) and a phase-diff
change (`scraper.py:248-249`). -/

/-- The identity keys of a batch, in order. -/
def keysOf (rows : List InRecord) : List String := rows.map (fun r => r.key)

/-- The entry seeded for a previously unknown key:
`{**current, "first_seen": today}`. -/
def seedEntry (r : InRecord) (today : String) : StateEntry :=
  { toSnapshot := currentOf r today, first_seen := today }

/-- The entry replacing an existing snapshot:
`{**old, **current, "first_seen": old["first_seen"]}` — every snapshot
field is overwritten by `current`, only `first_seen` survives from `old`. -/
def mergedEntry (r : InRecord) (today firstSeen : String) : StateEntry :=
  { toSnapshot := currentOf r today, first_seen := firstSeen }

/-- The `Jauns` (new) change emitted for a record unseen before. -/
def newChange (r : InRecord) (today : String) : ChangeRecord :=
  { toSnapshot := currentOf r today, key := r.key, change := "Jauns" }

/-- The phase-change record emitted for an updated record. -/
def updChange (r : InRecord) (today oldPhase : String) : ChangeRecord :=
  { toSnapshot := currentOf r today, key := r.key,
    change := changeTag oldPhase (norm r.phase) }

theorem deltaStep_none (today : String) (b : Bool) (d : List ChangeRecord)
    (m : StateMap) (r : InRecord) (h : dictGet m r.key = none) :
    deltaStep today b (d, m) r
      = ((if b then d else d ++ [newChange r today]),
         dictInsert m r.key (seedEntry r today)) := by
  simp [deltaStep, h, newChange, seedEntry]

theorem deltaStep_some (today : String) (b : Bool) (d : List ChangeRecord)
    (m : StateMap) (r : InRecord) (old : StateEntry)
    (h : dictGet m r.key = some old) :
    deltaStep today b (d, m) r
      = ((if old.phase ≠ norm r.phase then d ++ [updChange r today old.phase] else d),
         dictInsert m r.key (mergedEntry r today old.first_seen)) := by
  by_cases hph : old.phase = norm r.phase <;>
    simp [deltaStep, h, hph, updChange, mergedEntry, currentOf]

/-- Whatever branch an iteration takes, its state component is an insert
at the record's key. -/
theorem deltaStep_state (today : String) (b : Bool) (d : List ChangeRecord)
    (m : StateMap) (r : InRecord) :
    ∃ v : StateEntry, (deltaStep today b (d, m) r).2 = dictInsert m r.key v := by
  cases hg : dictGet m r.key with
  | none => exact ⟨seedEntry r today, by rw [deltaStep_none today b d m r hg]⟩
  | some old =>
      exact ⟨mergedEntry r today old.first_seen,
        by rw [deltaStep_some today b d m r old hg]⟩

/-- Whatever branch an iteration takes, the entry now stored at the
record's key has the record's normalized phase and `last_seen = today`. -/
theorem deltaStep_entry (today : String) (b : Bool) (d : List ChangeRecord)
    (m : StateMap) (r : InRecord) :
    ∃ v : StateEntry, (deltaStep today b (d, m) r).2 = dictInsert m r.key v ∧
      v.phase = norm r.phase ∧ v.last_seen = today := by
  cases hg : dictGet m r.key with
  | none =>
      exact ⟨seedEntry r today, by rw [deltaStep_none today b d m r hg], rfl, rfl⟩
  | some old =>
      exact ⟨mergedEntry r today old.first_seen,
        by rw [deltaStep_some today b d m r old hg], rfl, rfl⟩

/-- An iteration appends to the change list; the appended part depends
only on the state component. -/
theorem deltaStep_factor (today : String) (b : Bool) (d : List ChangeRecord)
    (m : StateMap) (r : InRecord) :
    deltaStep today b (d, m) r
      = (d ++ (deltaStep today b ([], m) r).1, (deltaStep today b ([], m) r).2) := by
  cases hg : dictGet m r.key with
  | none =>
      rw [deltaStep_none today b d m r hg, deltaStep_none today b [] m r hg]
      cases b <;> simp
  | some old =>
      rw [deltaStep_some today b d m r old hg, deltaStep_some today b [] m r old hg]
      by_cases hph : old.phase = norm r.phase <;> simp [hph]

/-- Every change an iteration appends carries the record's key. -/
theorem deltaStep_delta_key (today : String) (b : Bool) (m : StateMap)
    (r : InRecord) (c : ChangeRecord) (h : c ∈ (deltaStep today b ([], m) r).1) :
    c.key = r.key := by
  cases hg : dictGet m r.key with
  | none =>
      rw [deltaStep_none today b [] m r hg] at h
      cases b with
      | true => simp at h
      | false =>
          simp at h
          subst h; rfl
  | some old =>
      rw [deltaStep_some today b [] m r old hg] at h
      by_cases hph : old.phase = norm r.phase
      · simp [hph] at h
      · simp [hph] at h
        subst h; rfl

/-- Folding the batch factors the accumulated change list out front. -/
theorem foldDelta_factor (today : String) (b : Bool) :
    ∀ (rows : List InRecord) (d : List ChangeRecord) (m : StateMap),
    (rows.foldl (deltaStep today b) (d, m)).1
      = d ++ (rows.foldl (deltaStep today b) ([], m)).1 ∧
    (rows.foldl (deltaStep today b) (d, m)).2
      = (rows.foldl (deltaStep today b) ([], m)).2
  | [], d, m => by simp
  | r :: rest, d, m => by
    rw [List.foldl_cons, List.foldl_cons, deltaStep_factor today b d m r]
    obtain ⟨h1a, h1b⟩ := foldDelta_factor today b rest
      (d ++ (deltaStep today b ([], m) r).1) (deltaStep today b ([], m) r).2
    obtain ⟨h2a, h2b⟩ := foldDelta_factor today b rest
      (deltaStep today b ([], m) r).1 (deltaStep today b ([], m) r).2
    constructor
    · rw [h1a, h2a, List.append_assoc]
    · rw [h1b, h2b]

/-- Keys not named by any record of the batch keep their lookup through
the fold (records absent from `current_batch` are left untouched). -/
theorem foldState_get_ne (today : String) (b : Bool) :
    ∀ (rows : List InRecord) (d : List ChangeRecord) (m : StateMap) (k : String),
    (∀ r ∈ rows, r.key ≠ k) →
    dictGet (rows.foldl (deltaStep today b) (d, m)).2 k = dictGet m k
  | [], _, _, _ => by intro _; rfl
  | r :: rest, d, m, k => by
    intro h
    rw [List.foldl_cons]
    obtain ⟨v, hv⟩ := deltaStep_state today b d m r
    have hrw : deltaStep today b (d, m) r
        = ((deltaStep today b (d, m) r).1, dictInsert m r.key v) := by
      rw [← hv]
    rw [hrw, foldState_get_ne today b rest _ _ k (fun r' hr' => h r' (by simp [hr']))]
    exact dictGet_insert_ne m r.key k v (Ne.symm (h r (by simp)))

/-- Every change the fold emits names a key of the batch. -/
theorem foldDelta_keys (today : String) (b : Bool) :
    ∀ (rows : List InRecord) (m : StateMap) (c : ChangeRecord),
    c ∈ (rows.foldl (deltaStep today b) ([], m)).1 → c.key ∈ keysOf rows
  | [], m, c => by simp
  | r :: rest, m, c => by
    intro h
    rw [List.foldl_cons] at h
    have heta : deltaStep today b ([], m) r
        = ((deltaStep today b ([], m) r).1, (deltaStep today b ([], m) r).2) := rfl
    rw [heta] at h
    obtain ⟨ha, _⟩ := foldDelta_factor today b rest
      (deltaStep today b ([], m) r).1 (deltaStep today b ([], m) r).2
    rw [ha] at h
    rcases List.mem_append.mp h with hfst | hrest
    · have := deltaStep_delta_key today b m r c hfst
      simp [keysOf, this]
    · have := foldDelta_keys today b rest _ c hrest
      simp only [keysOf, List.map_cons, List.mem_cons]
      right
      simpa [keysOf] using this

theorem computeDelta_eq (prev : StateMap) (rows : List InRecord) (today : String) :
    computeDelta prev rows today
      = ((rows.foldl (deltaStep today (prev.length == 0)) ([], prev)).1,
         (rows.foldl (deltaStep today (prev.length == 0)) ([], prev)).2,
         (prev.length == 0)) := rfl

/-- On a baseline fold (empty prior state, distinct keys) nothing is ever
appended to the change list and every record ends up seeded. -/
theorem baselineFold (today : String) :
    ∀ (rows : List InRecord) (d : List ChangeRecord) (m : StateMap),
    (∀ r ∈ rows, dictGet m r.key = none) → (keysOf rows).Nodup →
    (rows.foldl (deltaStep today true) (d, m)).1 = d ∧
    (∀ r ∈ rows, dictGet (rows.foldl (deltaStep today true) (d, m)).2 r.key
      = some (seedEntry r today))
  | [], d, m => by intro _ _; exact ⟨rfl, by simp⟩
  | r :: rest, d, m => by
    intro hnone hnd
    have hndc : (∀ q ∈ rest, ¬ q.key = r.key) ∧ (keysOf rest).Nodup := by
      simpa [keysOf] using hnd
    have hkey : ∀ q ∈ rest, q.key ≠ r.key := hndc.1
    rw [List.foldl_cons, deltaStep_none today true d m r (hnone r (by simp)),
      if_pos rfl]
    have hnone' : ∀ q ∈ rest,
        dictGet (dictInsert m r.key (seedEntry r today)) q.key = none := by
      intro q hq
      rw [dictGet_insert_ne _ _ _ _ (hkey q hq)]
      exact hnone q (by simp [hq])
    obtain ⟨ih1, ih2⟩ := baselineFold today rest d
      (dictInsert m r.key (seedEntry r today)) hnone' hndc.2
    refine ⟨ih1, ?_⟩
    intro r' hr'
    rcases List.mem_cons.mp hr' with heq | hmem
    · subst heq
      rw [foldState_get_ne today true rest d _ r'.key hkey]
      exact dictGet_insert_self _ _ _
    · exact ih2 r' hmem

/-- After a fold over a distinct-key batch, every record's key maps to an
entry whose phase is the record's normalized phase. -/
theorem foldPhase_set (today : String) (b : Bool) :
    ∀ (rows : List InRecord) (d : List ChangeRecord) (m : StateMap),
    (keysOf rows).Nodup →
    ∀ r ∈ rows, ∃ e : StateEntry,
      dictGet (rows.foldl (deltaStep today b) (d, m)).2 r.key = some e ∧
      e.phase = norm r.phase
  | [], _, _ => by intro _ r hr; cases hr
  | r :: rest, d, m => by
    intro hnd r' hr'
    have hndc : (∀ q ∈ rest, ¬ q.key = r.key) ∧ (keysOf rest).Nodup := by
      simpa [keysOf] using hnd
    have hkey : ∀ q ∈ rest, q.key ≠ r.key := hndc.1
    obtain ⟨v, hv, hvp, _⟩ := deltaStep_entry today b d m r
    have hrw : deltaStep today b (d, m) r
        = ((deltaStep today b (d, m) r).1, dictInsert m r.key v) := by rw [← hv]
    rw [List.foldl_cons, hrw]
    rcases List.mem_cons.mp hr' with heq | hmem
    · subst heq
      refine ⟨v, ?_, hvp⟩
      rw [foldState_get_ne today b rest _ _ r'.key hkey]
      exact dictGet_insert_self _ _ _
    · exact foldPhase_set today b rest _ _ hndc.2 r' hmem

/-- If every record's key already maps to an entry with the record's
normalized phase, a fold over a distinct-key batch emits no change. -/
theorem foldNoChange (today : String) (b : Bool) :
    ∀ (rows : List InRecord) (d : List ChangeRecord) (m : StateMap),
    (keysOf rows).Nodup →
    (∀ r ∈ rows, ∃ e : StateEntry, dictGet m r.key = some e ∧ e.phase = norm r.phase) →
    (rows.foldl (deltaStep today b) (d, m)).1 = d
  | [], _, _ => by intro _ _; rfl
  | r :: rest, d, m => by
    intro hnd hall
    have hndc : (∀ q ∈ rest, ¬ q.key = r.key) ∧ (keysOf rest).Nodup := by
      simpa [keysOf] using hnd
    have hkey : ∀ q ∈ rest, q.key ≠ r.key := hndc.1
    obtain ⟨e, he, hp⟩ := hall r (by simp)
    rw [List.foldl_cons, deltaStep_some today b d m r e he, if_neg (by simp [hp])]
    apply foldNoChange today b rest d _ hndc.2
    intro q hq
    obtain ⟨e', he', hp'⟩ := hall q (by simp [hq])
    refine ⟨e', ?_, hp'⟩
    rw [dictGet_insert_ne _ _ _ _ (hkey q hq)]
    exact he'

/-- The fold preserves an existing `first_seen` value at any key, even
across duplicate occurrences of that key in the batch. -/
theorem foldKeepFirstSeen (today : String) (b : Bool) (k fs : String) :
    ∀ (rows : List InRecord) (d : List ChangeRecord) (m : StateMap),
    (∃ e : StateEntry, dictGet m k = some e ∧ e.first_seen = fs) →
    ∃ e : StateEntry,
      dictGet (rows.foldl (deltaStep today b) (d, m)).2 k = some e ∧
      e.first_seen = fs
  | [], _, _ => fun h => h
  | r :: rest, d, m => by
    intro h
    obtain ⟨e, he, hf⟩ := h
    rw [List.foldl_cons]
    by_cases hk : r.key = k
    · rw [deltaStep_some today b d m r e (by rw [hk]; exact he)]
      apply foldKeepFirstSeen today b k fs rest _ _
      refine ⟨mergedEntry r today e.first_seen, ?_, hf⟩
      rw [hk]
      exact dictGet_insert_self _ _ _
    · obtain ⟨v, hv⟩ := deltaStep_state today b d m r
      have hrw : deltaStep today b (d, m) r
          = ((deltaStep today b (d, m) r).1, dictInsert m r.key v) := by rw [← hv]
      rw [hrw]
      apply foldKeepFirstSeen today b k fs rest _ _
      refine ⟨e, ?_, hf⟩
      rw [dictGet_insert_ne _ _ _ _ (fun hh => hk hh.symm)]
      exact he

/-- Once the entry at a key carries a given `first_seen` and the current
run date as `last_seen`, the rest of the fold keeps both. -/
theorem foldSeenToday (today : String) (b : Bool) (k fs : String) :
    ∀ (rows : List InRecord) (d : List ChangeRecord) (m : StateMap),
    (∃ e : StateEntry, dictGet m k = some e ∧ e.first_seen = fs ∧
      e.last_seen = today) →
    ∃ e : StateEntry,
      dictGet (rows.foldl (deltaStep today b) (d, m)).2 k = some e ∧
      e.first_seen = fs ∧ e.last_seen = today
  | [], _, _ => fun h => h
  | r :: rest, d, m => by
    intro h
    obtain ⟨e, he, hf, hl⟩ := h
    rw [List.foldl_cons]
    by_cases hk : r.key = k
    · rw [deltaStep_some today b d m r e (by rw [hk]; exact he)]
      apply foldSeenToday today b k fs rest _ _
      refine ⟨mergedEntry r today e.first_seen, ?_, hf, rfl⟩
      rw [hk]
      exact dictGet_insert_self _ _ _
    · obtain ⟨v, hv⟩ := deltaStep_state today b d m r
      have hrw : deltaStep today b (d, m) r
          = ((deltaStep today b (d, m) r).1, dictInsert m r.key v) := by rw [← hv]
      rw [hrw]
      apply foldSeenToday today b k fs rest _ _
      refine ⟨e, ?_, hf, hl⟩
      rw [dictGet_insert_ne _ _ _ _ (fun hh => hk hh.symm)]
      exact he

/-! Section: claim C1 — baseline silence -/

/-- Claim C1 (amended): for every `current_batch` whose records carry
pairwise-distinct identity keys, if the prior state passed to
`compute_delta` is empty then the returned `changes` list is empty,
`is_baseline_run` is `true`, and every record of the batch is seeded into
the returned new state (snapshot fields from the record, `first_seen` and
`last_seen` set to the run date).  The distinct-keys proviso is forced by
the counterexample: with two same-key records the second one compares
against the first one's freshly seeded entry and can emit a change even
on a baseline run. -/
theorem C1_baseline_silence (rows : List InRecord) (today : String)
    (hnd : (keysOf rows).Nodup) :
    (computeDelta [] rows today).1 = [] ∧
    (computeDelta [] rows today).2.2 = true ∧
    ∀ r ∈ rows, dictGet (computeDelta [] rows today).2.1 r.key
      = some (seedEntry r today) := by
  obtain ⟨h1, h2⟩ := baselineFold today rows [] []
    (fun r _ => rfl) hnd
  exact ⟨h1, rfl, h2⟩

/-- A single-record batch for the C1 witness. -/
def c1wr : InRecord :=
  { key := "w1", authority := "a", phase := "Iecere" }

/-- Witness for C1: the amended theorem applied to a concrete one-record
batch over the empty prior state. -/
theorem C1_baseline_silence_witness :
    (computeDelta [] [c1wr] "2025-03-01").1 = [] ∧
    (computeDelta [] [c1wr] "2025-03-01").2.2 = true ∧
    dictGet (computeDelta [] [c1wr] "2025-03-01").2.1 c1wr.key
      = some (seedEntry c1wr "2025-03-01") := by
  obtain ⟨h1, h2, h3⟩ := C1_baseline_silence [c1wr] "2025-03-01" (by decide)
  exact ⟨h1, h2, h3 c1wr (by simp)⟩

/-- First record of the C1 counterexample batch. -/
def c1xr1 : InRecord := { key := "k", authority := "a", phase := "A" }

/-- Second record of the C1 counterexample batch: same key, new phase. -/
def c1xr2 : InRecord := { key := "k", authority := "a", phase := "B" }

/-- Counterexample to C1 as stated: over an empty prior state, a batch
with two records of the same identity key and differing phases is still a
baseline run, yet `compute_delta` emits a (phase) change for the second
record — the changes list is not empty for every `current_batch`. -/
theorem C1_counterexample :
    (computeDelta [] [c1xr1, c1xr2] "2025-03-01").2.2 = true ∧
    (computeDelta [] [c1xr1, c1xr2] "2025-03-01").1 ≠ [] := by decide

/-! Section: claim C2 — updated-change completeness -/

/-- Claim C2 (amended): for a batch with pairwise-distinct identity keys
and a record whose key is present in the prior state, the changes list
contains a change for that key exactly when the configured significant
field — the normalized `phase`, the only field `compute_delta` compares
(`scraper.py:247`) — differs from the stored snapshot; the emitted change
carries the before/after values in its `Stadija: old → new` tag, and the
stored snapshot is replaced by the record's new field values with the
original `first_seen` preserved.  The distinct-keys proviso is forced by
the counterexample below. -/
theorem C2_updated_field_diffs (prev : StateMap) (rows : List InRecord)
    (today : String) (r : InRecord) (old : StateEntry)
    (hnd : (keysOf rows).Nodup) (hr : r ∈ rows)
    (hold : dictGet prev r.key = some old) :
    ((computeDelta prev rows today).1.filter (fun c => c.key == r.key))
      = (if old.phase ≠ norm r.phase then [updChange r today old.phase] else []) ∧
    dictGet (computeDelta prev rows today).2.1 r.key
      = some (mergedEntry r today old.first_seen) := by
  obtain ⟨pre, post, rfl⟩ := List.append_of_mem hr
  have hmap : keysOf (pre ++ r :: post) = keysOf pre ++ r.key :: keysOf post := by
    simp [keysOf]
  rw [hmap] at hnd
  obtain ⟨hndpre, hndmid, hdisj⟩ := List.nodup_append.mp hnd
  have hnotpre : r.key ∉ keysOf pre := fun hmem => hdisj hmem (by simp)
  have hnotpost : r.key ∉ keysOf post := (List.nodup_cons.mp hndmid).1
  have hpre : ∀ q ∈ pre, q.key ≠ r.key := fun q hq heq =>
    hnotpre (heq ▸ List.mem_map_of_mem (fun r => r.key) hq)
  have hpost : ∀ q ∈ post, q.key ≠ r.key := fun q hq heq =>
    hnotpost (heq ▸ List.mem_map_of_mem (fun r => r.key) hq)
  rw [computeDelta_eq]
  set b := (prev.length == 0) with hb
  rw [List.foldl_append, List.foldl_cons]
  have hA : dictGet ((pre.foldl (deltaStep today b) ([], prev)).2) r.key
      = some old := by
    rw [foldState_get_ne today b pre [] prev r.key hpre]
    exact hold
  have heta : pre.foldl (deltaStep today b) ([], prev)
      = ((pre.foldl (deltaStep today b) ([], prev)).1,
         (pre.foldl (deltaStep today b) ([], prev)).2) := rfl
  rw [heta, deltaStep_some today b _ _ r old hA]
  constructor
  · obtain ⟨hfac, -⟩ := foldDelta_factor today b post
      (if old.phase ≠ norm r.phase then
        (pre.foldl (deltaStep today b) ([], prev)).1 ++ [updChange r today old.phase]
       else (pre.foldl (deltaStep today b) ([], prev)).1)
      (dictInsert (pre.foldl (deltaStep today b) ([], prev)).2 r.key
        (mergedEntry r today old.first_seen))
    rw [hfac, List.filter_append]
    have hpostnil :
        ((post.foldl (deltaStep today b)
          ([], dictInsert (pre.foldl (deltaStep today b) ([], prev)).2 r.key
            (mergedEntry r today old.first_seen))).1.filter
          (fun c => c.key == r.key)) = [] := by
      apply List.filter_eq_nil_iff.mpr
      intro c hc
      have hckey := foldDelta_keys today b post _ c hc
      simp only [beq_iff_eq]
      intro heq
      exact hnotpost (heq ▸ hckey)
    have hprenil :
        ((pre.foldl (deltaStep today b) ([], prev)).1.filter
          (fun c => c.key == r.key)) = [] := by
      apply List.filter_eq_nil_iff.mpr
      intro c hc
      have hckey := foldDelta_keys today b pre prev c hc
      simp only [beq_iff_eq]
      intro heq
      exact hnotpre (heq ▸ hckey)
    rw [hpostnil]
    by_cases hph : old.phase = norm r.phase
    · rw [if_neg (by simp [hph]), if_neg (by simp [hph]), hprenil]
      rfl
    · rw [if_pos hph, if_pos hph, List.filter_append, hprenil]
      simp [updChange]
  · obtain ⟨-, hfac2⟩ := foldDelta_factor today b post
      (if old.phase ≠ norm r.phase then
        (pre.foldl (deltaStep today b) ([], prev)).1 ++ [updChange r today old.phase]
       else (pre.foldl (deltaStep today b) ([], prev)).1)
      (dictInsert (pre.foldl (deltaStep today b) ([], prev)).2 r.key
        (mergedEntry r today old.first_seen))
    rw [hfac2, foldState_get_ne today b post [] _ r.key hpost]
    exact dictGet_insert_self _ _ _

/-- The prior entry of the C2 witness. -/
def c2wold : StateEntry :=
  { bis_number := "", authority := "a", address := "", object := "",
    phase := "A", construction_type := "", details_url := "",
    last_seen := "2025-04-01", first_seen := "2025-04-01" }

/-- The updated record of the C2 witness: same key, phase A → B. -/
def c2wr : InRecord := { key := "k", authority := "a", phase := "B" }

/-- Witness for C2: a concrete one-record batch updating a stored entry
emits exactly the phase change and replaces the snapshot, keeping the
original `first_seen`. -/
theorem C2_updated_field_diffs_witness :
    ((computeDelta [("k", c2wold)] [c2wr] "2025-04-02").1.filter
        (fun c => c.key == c2wr.key))
      = [updChange c2wr "2025-04-02" "A"] ∧
    dictGet (computeDelta [("k", c2wold)] [c2wr] "2025-04-02").2.1 c2wr.key
      = some (mergedEntry c2wr "2025-04-02" "2025-04-01") := by
  obtain ⟨h1, h2⟩ := C2_updated_field_diffs [("k", c2wold)] [c2wr] "2025-04-02"
    c2wr c2wold (by decide) (by simp) (by decide)
  rw [if_pos (by decide)] at h1
  exact ⟨h1, h2⟩

/-- The stored entry of the C2 counterexample, phase `A`. -/
def c2xold : StateEntry :=
  { bis_number := "", authority := "a", address := "", object := "",
    phase := "A", construction_type := "", details_url := "",
    last_seen := "2025-01-01", first_seen := "2025-01-01" }

/-- First counterexample record: same key, phase `B`. -/
def c2xr1 : InRecord := { key := "k", authority := "a", phase := "B" }

/-- Second counterexample record: same key, phase `A` — identical to the
stored snapshot. -/
def c2xr2 : InRecord := { key := "k", authority := "a", phase := "A" }

/-- Counterexample to C2 as stated: record `c2xr2` is present in the
prior state and none of its significant fields differ from the stored
snapshot (its phase equals the stored phase `A`), yet `compute_delta`
emits an `Updated` change carrying `c2xr2`'s data (tag
`Stadija: B → A`), because the comparison is against the running state
mutated by the earlier same-key record, not the stored snapshot. -/
theorem C2_counterexample :
    dictGet [("k", c2xold)] c2xr2.key = some c2xold ∧
    c2xold.phase = norm c2xr2.phase ∧
    ((computeDelta [("k", c2xold)] [c2xr1, c2xr2] "2025-01-02").1.map
        (fun c => c.change))
      = ["Stadija: A → B", "Stadija: B → A"] := by decide

/-! Section: claim C3 — delta idempotence -/

/-- Claim C3 (amended): for every prior state and every `current_batch`
with pairwise-distinct identity keys, feeding the `new_state` of one
`compute_delta` call back as `prior_state` together with the same batch
yields an empty changes list on the second call (whatever run date either
call uses).  The distinct-keys proviso is forced by the counterexample:
duplicate keys with differing phases flip the stored phase back and forth
and re-emit changes forever. -/
theorem C3_delta_idempotence (prev : StateMap) (rows : List InRecord)
    (today today2 : String) (hnd : (keysOf rows).Nodup) :
    (computeDelta (computeDelta prev rows today).2.1 rows today2).1 = [] := by
  rw [computeDelta_eq prev rows today, computeDelta_eq]
  apply foldNoChange today2 _ rows [] _ hnd
  intro r hr
  exact foldPhase_set today (prev.length == 0) rows [] prev hnd r hr

/-- The single-record batch of the C3 witness. -/
def c3wr : InRecord := { key := "k3", authority := "a", phase := "Iecere" }

/-- Witness for C3: the amended idempotence theorem at a concrete batch. -/
theorem C3_delta_idempotence_witness :
    (computeDelta (computeDelta [] [c3wr] "2025-05-01").2.1 [c3wr] "2025-05-02").1
      = [] :=
  C3_delta_idempotence [] [c3wr] "2025-05-01" "2025-05-02" (by decide)

/-- First record of the C3 counterexample batch. -/
def c3xr1 : InRecord := { key := "k", authority := "a", phase := "A" }

/-- Second record of the C3 counterexample batch: same key, other phase. -/
def c3xr2 : InRecord := { key := "k", authority := "a", phase := "B" }

/-- Counterexample to C3 as stated: with a duplicate-key batch the second
call still emits changes (the stored phase ends at `B`, so re-processing
the `A` record emits `B → A`, and then the `B` record emits `A → B`
again). -/
theorem C3_counterexample :
    (computeDelta (computeDelta [] [c3xr1, c3xr2] "2025-05-01").2.1
        [c3xr1, c3xr2] "2025-05-01").1 ≠ [] := by decide

/-! Section: claim C4 — first_seen / last_seen frame -/

/-- Claim C4: for every entry of the prior state whose identity key
reappears in `current_batch`, the new state returned by `compute_delta`
holds an entry at that key whose `first_seen` equals the prior entry's
`first_seen` unchanged, and whose `last_seen` is the current run's date.
This holds for arbitrary batches (duplicate keys included), since every
merge at the key preserves `first_seen` and stamps `last_seen := today`
(`scraper.py:239,250`). -/
theorem C4_first_seen_frame (prev : StateMap) (rows : List InRecord)
    (today : String) (k : String) (old : StateEntry)
    (hold : dictGet prev k = some old) (hk : k ∈ keysOf rows) :
    ∃ e : StateEntry,
      dictGet (computeDelta prev rows today).2.1 k = some e ∧
      e.first_seen = old.first_seen ∧ e.last_seen = today := by
  rw [computeDelta_eq]
  set b := (prev.length == 0) with hb
  obtain ⟨r, hr, hkey⟩ := List.mem_map.mp hk
  obtain ⟨pre, post, rfl⟩ := List.append_of_mem hr
  rw [List.foldl_append, List.foldl_cons]
  obtain ⟨e1, he1, hf1⟩ := foldKeepFirstSeen today b k old.first_seen pre [] prev
    ⟨old, hold, rfl⟩
  have he1' : dictGet ((pre.foldl (deltaStep today b) ([], prev)).2) r.key
      = some e1 := by
    rw [hkey]; exact he1
  have heta : pre.foldl (deltaStep today b) ([], prev)
      = ((pre.foldl (deltaStep today b) ([], prev)).1,
         (pre.foldl (deltaStep today b) ([], prev)).2) := rfl
  rw [heta, deltaStep_some today b _ _ r e1 he1']
  apply foldSeenToday today b k old.first_seen post _ _
  refine ⟨mergedEntry r today e1.first_seen, ?_, hf1, rfl⟩
  rw [← hkey]
  exact dictGet_insert_self _ _ _

/-- The prior entry of the C4 witness, first seen end of 2024. -/
def c4wold : StateEntry :=
  { bis_number := "", authority := "a", address := "", object := "",
    phase := "A", construction_type := "", details_url := "",
    last_seen := "2025-06-01", first_seen := "2024-12-31" }

/-- The reappearing record of the C4 witness. -/
def c4wr : InRecord := { key := "k4", authority := "a", phase := "B" }

/-- Witness for C4: at a concrete reappearing key the new state keeps
`first_seen = 2024-12-31` and stamps `last_seen` with the new run date. -/
theorem C4_first_seen_frame_witness :
    ((dictGet (computeDelta [("k4", c4wold)] [c4wr] "2025-06-02").2.1 "k4").map
        (fun e => (e.first_seen, e.last_seen)))
      = some ("2024-12-31", "2025-06-02") := by
  obtain ⟨e, he, hf, hl⟩ := C4_first_seen_frame [("k4", c4wold)] [c4wr]
    "2025-06-02" "k4" c4wold (by decide) (by decide)
  rw [he]
  simp [hf, hl, c4wold]

/-! Section: claim C10 — blank phase/type bypass the whitelists -/

/-- Claim C10 (amended): for a record whose normalized authority is in the
authority whitelist, `filter_row` accepts it exactly when each of the
normalized phase and construction type is either empty or in its
whitelist — the phase and type whitelists are enforced only on non-empty
values, so a blank value never causes rejection (but a non-blank,
non-whitelisted value in the other field still does, which is what the
counterexample pins down against the claim's "accepts whenever either is
blank" reading). -/
theorem C10_blank_whitelist_bypass (r : InRecord)
    (hauth : (authLookup (norm r.authority)).isSome = true) :
    filter_row r = true ↔
      ((norm r.phase = "" ∨ norm r.phase ∈ phaseKeepNorm) ∧
       (norm r.construction_type = ""
          ∨ norm r.construction_type ∈ typeKeepNorm)) := by
  by_cases hpc : norm r.phase ∈ phaseKeepNorm <;>
    by_cases htc : norm r.construction_type ∈ typeKeepNorm <;>
      by_cases hp : norm r.phase = "" <;>
        by_cases ht : norm r.construction_type = "" <;>
          simp [filter_row, List.elem_iff, hauth, hp, ht, hpc, htc]

/-- The C10 witness record: whitelisted authority, blank phase and type. -/
def c10wr : InRecord := { key := "y", authority := "Mārupes novada Būvvalde" }

/-- Witness for C10: a record with whitelisted authority and blank phase
and construction type passes the filter. -/
theorem C10_blank_whitelist_bypass_witness : filter_row c10wr = true :=
  (C10_blank_whitelist_bypass c10wr (by decide)).mpr (by decide)

/-- The C10 counterexample record: whitelisted authority, blank phase,
but a non-whitelisted construction type. -/
def c10xr : InRecord :=
  { key := "x", authority := "Jūrmalas Būvvalde", phase := "",
    construction_type := "Nojaukšana" }

/-- Counterexample to C10 as stated: this record's authority is
whitelisted and its phase normalizes to the empty string, yet the filter
rejects it — a blank phase alone does not make the filter accept, because
the construction-type whitelist still applies to its non-blank value. -/
theorem C10_counterexample :
    (authLookup (norm c10xr.authority)).isSome = true ∧
    norm c10xr.phase = "" ∧
    filter_row c10xr = false := by decide

/-! Section: circuit-breaker side conditions used by claims C5 and C6 -/

theorem errCount_le_length (wnd : List Bool) : errCount wnd ≤ wnd.length :=
  List.countP_le_length _

/-- With a threshold above 1 the breaker can never trip: the error ratio
is at most 1. -/
theorem stormCondB_false_of_one_lt (cfg : Config) (wnd : List Bool)
    (h : 1 < cfg.errorBailThreshold) : stormCondB cfg wnd = false := by
  rw [stormCondB]
  have hnot : ¬ (cfg.errorBailThreshold ≤ (errCount wnd : ℚ) / (wnd.length : ℚ)) := by
    intro hle
    have hratio : (errCount wnd : ℚ) / (wnd.length : ℚ) ≤ 1 := by
      rcases Nat.eq_zero_or_pos wnd.length with h0 | hpos
      · rw [h0]
        simp
      · rw [div_le_one (by exact_mod_cast hpos)]
        exact_mod_cast errCount_le_length wnd
    linarith
  simp [hnot]

theorem errCount_eq_zero (wnd : List Bool) (h : ∀ f ∈ wnd, f = false) :
    errCount wnd = 0 := by
  rw [errCount, List.countP_eq_zero]
  intro f hf
  simp [h f hf]

/-- With a positive threshold the breaker never trips on an all-clean
window. -/
theorem stormCondB_false_of_all_false (cfg : Config) (wnd : List Bool)
    (hth : 0 < cfg.errorBailThreshold) (h : ∀ f ∈ wnd, f = false) :
    stormCondB cfg wnd = false := by
  rw [stormCondB]
  have hnot : ¬ (cfg.errorBailThreshold ≤ (errCount wnd : ℚ) / (wnd.length : ℚ)) := by
    rw [errCount_eq_zero wnd h]
    push_cast
    rw [zero_div]
    linarith
  simp [hnot]

theorem maybeCooldown_eq_self (cfg : Config) (st : RunState)
    (h : stormCondB cfg st.recentFlags = false) : maybeCooldown cfg st = st := by
  simp [maybeCooldown, h]

theorem dequeAppend_all_false (bound : Nat) (wnd : List Bool)
    (h : ∀ f ∈ wnd, f = false) :
    ∀ f ∈ dequeAppend bound wnd false, f = false := by
  intro f hf
  have hmem : f ∈ wnd ++ [false] := List.mem_of_mem_drop hf
  rcases List.mem_append.mp hmem with h1 | h2
  · exact h f h1
  · simpa using h2

/-! Section: claim C6 — consecutive-empty baseline completion -/

/-- The early-completion condition of the sequential loop as a predicate
over a status sequence: starting from a consecutive-empty count `c`, an
`Empty` outcome increments the count (completing at 2), an `Ok` outcome
resets it, and an `Error` outcome leaves it alone — mirroring
`scraper.py:499-509`, where only the `Ok` branch resets `consec_empty`. -/
def emptyRunTrips : Nat → List PageStatus → Bool
  | _, [] => false
  | c, s :: rest =>
    match s with
    | .empty => if c + 1 ≥ 2 then true else emptyRunTrips (c + 1) rest
    | .ok _ => emptyRunTrips 0 rest
    | .error => emptyRunTrips c rest

/-- Two literally adjacent `Empty` outcomes — the claim's reading of
"consecutive". -/
def hasAdjacentEmpties : List PageStatus → Bool
  | .empty :: .empty :: _ => true
  | _ :: rest => hasAdjacentEmpties rest
  | [] => false

/-- Claim C6 (amended): while in Building mode (and with a breaker that
never interrupts the pass — threshold above 1), the sequential loop sets
`baseline_complete` and skips the rest of the window exactly when the
configured number (2) of `Empty` outcomes accumulates with no intervening
`Ok` outcome among the pages it actually fetches — `Error` outcomes do
not reset the count (`scraper.py:509` resets only on `Ok`), which is what
the counterexample pins down against the claim's "consecutive Empty
outcomes". -/
theorem C6_empty_completion (cfg : Config) (w : Nat → PageStatus)
    (hth : 1 < cfg.errorBailThreshold) :
    ∀ (pages : List Nat) (st : RunState),
    st.bailed = false → st.baselineComplete = false →
    ((seqPass cfg w pages st).baselineComplete = true ↔
      emptyRunTrips st.consecEmpty
        ((pages.filter (fun n => !st.visited.contains n)).map w) = true)
  | [], st => by
    intro hb hbc
    simp [seqPass, emptyRunTrips, hbc]
  | n :: rest, st => by
    intro hb hbc
    by_cases hv : n ∈ st.visited
    · have hfil : (n :: rest).filter (fun m => !st.visited.contains m)
          = rest.filter (fun m => !st.visited.contains m) := by
        simp [List.filter_cons, hv]
      have hstep : seqPass cfg w (n :: rest) st = seqPass cfg w rest st := by
        rw [seqPass]
        simp [hb, hv]
      rw [hfil, hstep]
      exact C6_empty_completion cfg w hth rest st hb hbc
    · have hfil : (n :: rest).filter (fun m => !st.visited.contains m)
          = n :: rest.filter (fun m => !st.visited.contains m) := by
        simp [List.filter_cons, hv]
      rw [hfil, List.map_cons]
      cases hwn : w n with
      | error =>
        have hstep : seqPass cfg w (n :: rest) st
            = seqPass cfg w rest (maybeCooldown cfg
                { st with queue := pushFailedPage cfg st.queue n,
                          errorPages := st.errorPages ++ [n],
                          recentFlags :=
                            dequeAppend cfg.errorBailWindow st.recentFlags true }) := by
          rw [seqPass]
          simp [hb, hv, hwn]
        rw [hstep, maybeCooldown_eq_self cfg _ (stormCondB_false_of_one_lt cfg _ hth)]
        have ih := C6_empty_completion cfg w hth rest
          { st with queue := pushFailedPage cfg st.queue n,
                    errorPages := st.errorPages ++ [n],
                    recentFlags :=
                      dequeAppend cfg.errorBailWindow st.recentFlags true } hb hbc
        rw [ih]
        simp [emptyRunTrips]
      | empty =>
        by_cases hc : 1 ≤ st.consecEmpty
        · have hstep : (seqPass cfg w (n :: rest) st).baselineComplete = true := by
            rw [seqPass]
            simp [hb, hv, hwn, hbc, hc]
          simp [hstep, emptyRunTrips, hc]
        · have hstep : seqPass cfg w (n :: rest) st
              = seqPass cfg w rest (maybeCooldown cfg
                  { st with pagesFetched := st.pagesFetched + 1,
                            consecEmpty := st.consecEmpty + 1,
                            emptyPages := st.emptyPages ++ [n],
                            recentFlags :=
                              dequeAppend cfg.errorBailWindow st.recentFlags false }) := by
            rw [seqPass]
            simp [hb, hv, hwn, hbc, hc]
          rw [hstep, maybeCooldown_eq_self cfg _ (stormCondB_false_of_one_lt cfg _ hth)]
          have ih := C6_empty_completion cfg w hth rest
            { st with pagesFetched := st.pagesFetched + 1,
                      consecEmpty := st.consecEmpty + 1,
                      emptyPages := st.emptyPages ++ [n],
                      recentFlags :=
                        dequeAppend cfg.errorBailWindow st.recentFlags false } hb hbc
          rw [ih]
          simp [emptyRunTrips, hc]
      | ok rows =>
        have hstep : seqPass cfg w (n :: rest) st
            = seqPass cfg w rest (maybeCooldown cfg
                { st with pagesFetched := st.pagesFetched + 1,
                          totalScanned := st.totalScanned + rows,
                          consecEmpty := 0,
                          recentFlags :=
                            dequeAppend cfg.errorBailWindow st.recentFlags false,
                          seqLastScanned := max st.seqLastScanned n }) := by
          rw [seqPass]
          simp [hb, hv, hwn, hbc]
        rw [hstep, maybeCooldown_eq_self cfg _ (stormCondB_false_of_one_lt cfg _ hth)]
        have ih := C6_empty_completion cfg w hth rest
          { st with pagesFetched := st.pagesFetched + 1,
                    totalScanned := st.totalScanned + rows,
                    consecEmpty := 0,
                    recentFlags :=
                      dequeAppend cfg.errorBailWindow st.recentFlags false,
                    seqLastScanned := max st.seqLastScanned n } hb hbc
        rw [ih]
        simp [emptyRunTrips]

/-- The breaker-free configuration of the C6 witness (threshold 2 > 1). -/
def c6wcfg : Config := { errorBailThreshold := 2 }

/-- An all-empty worklist world for the C6 witness. -/
def c6ww : Nat → PageStatus := fun _ => .empty

/-- The fresh Building-mode loop state of the C6 witness. -/
def c6wst : RunState :=
  { pagesFetched := 0, totalScanned := 0, consecEmpty := 0,
    errorPages := [], emptyPages := [], recentFlags := [],
    seqLastScanned := 0, stormCooldownsUsed := 0, queue := [],
    baselineComplete := false, bailed := false, visited := [] }

/-- Witness for C6: two empty pages in the window complete the baseline. -/
theorem C6_empty_completion_witness :
    (seqPass c6wcfg c6ww [7, 8] c6wst).baselineComplete = true := by
  have h := C6_empty_completion c6wcfg c6ww one_lt_two [7, 8] c6wst rfl rfl
  rw [h]
  decide

/-- The default-config world of the C6 counterexample: empty, error,
empty, then data. -/
def c6xw : Nat → PageStatus := fun n =>
  if n = 1 then .empty else if n = 2 then .error
  else if n = 3 then .empty else .ok 1

/-- The fresh Building-mode loop state of the C6 counterexample. -/
def c6xst : RunState :=
  { pagesFetched := 0, totalScanned := 0, consecEmpty := 0,
    errorPages := [], emptyPages := [], recentFlags := [],
    seqLastScanned := 0, stormCooldownsUsed := 0, queue := [],
    baselineComplete := false, bailed := false, visited := [] }

/-- Counterexample to C6 as stated: the outcome sequence empty, error,
empty, ok contains no two consecutive `Empty` outcomes, yet the loop
transitions to SteadyState on page 3 because the error on page 2 does
not reset the consecutive-empty counter. -/
theorem C6_counterexample :
    (seqPass ({ targetMaxPage := 10 } : Config) c6xw [1, 2, 3, 4] c6xst).baselineComplete
        = true ∧
    hasAdjacentEmpties ([1, 2, 3, 4].map c6xw) = false := by decide

/-! Section: claim C5 — cursor bound and monotonicity -/

/-- The persisted cursor never exceeds the page ceiling: the end-of-run
update clamps any overflow to `{next_page: 1, baseline_complete: true}`. -/
theorem nextCursor_nextPage_le (cfg : Config) (np s : Nat) (st : RunState)
    (h : 1 ≤ cfg.targetMaxPage) :
    (nextCursor cfg np s st).nextPage ≤ cfg.targetMaxPage := by
  cases hbc : st.baselineComplete with
  | true => simpa [nextCursor, hbc] using h
  | false =>
    rw [nextCursor]
    simp only [hbc, Bool.not_false, if_true]
    by_cases h1 : s ≤ st.seqLastScanned
    · rw [if_pos h1]
      by_cases h2 : cfg.targetMaxPage < st.seqLastScanned + 1
      · rw [if_pos h2]
        exact h
      · rw [if_neg h2]
        show st.seqLastScanned + 1 ≤ cfg.targetMaxPage
        omega
    · rw [if_neg h1]
      by_cases h2 : cfg.targetMaxPage < np
      · rw [if_pos h2]
        exact h
      · rw [if_neg h2]
        show np ≤ cfg.targetMaxPage
        omega

/-- Over a window with no `Error` outcomes (and a positive breaker
threshold, so an all-clean window can never trip the breaker), the
sequential loop never bails, keeps its window clean, only grows
`seq_last_scanned`, and — unless it completed the baseline early — has
scanned past every fresh `Ok` page of the window. -/
theorem seqPass_no_error (cfg : Config) (w : Nat → PageStatus)
    (hth : 0 < cfg.errorBailThreshold) :
    ∀ (pages : List Nat) (st : RunState),
    (∀ n ∈ pages, w n ≠ .error) → st.bailed = false →
    (∀ f ∈ st.recentFlags, f = false) →
    (seqPass cfg w pages st).bailed = false ∧
    (∀ f ∈ (seqPass cfg w pages st).recentFlags, f = false) ∧
    st.seqLastScanned ≤ (seqPass cfg w pages st).seqLastScanned ∧
    ((seqPass cfg w pages st).baselineComplete = false →
      ∀ n ∈ pages, n ∉ st.visited →
        ∀ rows, w n = .ok rows → n ≤ (seqPass cfg w pages st).seqLastScanned)
  | [], st => by
    intro _ hb hf
    exact ⟨hb, hf, le_refl _,
      fun _ n hn => absurd hn (List.not_mem_nil n)⟩
  | n :: rest, st => by
    intro hpages hb hf
    have hrest : ∀ m ∈ rest, w m ≠ .error := fun m hm => hpages m (by simp [hm])
    by_cases hv : n ∈ st.visited
    · have hstep : seqPass cfg w (n :: rest) st = seqPass cfg w rest st := by
        rw [seqPass]
        simp [hb, hv]
      rw [hstep]
      obtain ⟨ih1, ih2, ih3, ih4⟩ := seqPass_no_error cfg w hth rest st hrest hb hf
      refine ⟨ih1, ih2, ih3, ?_⟩
      intro hcomp m hm hmv rows hok
      rcases List.mem_cons.mp hm with rfl | hm'
      · exact absurd hv hmv
      · exact ih4 hcomp m hm' hmv rows hok
    · cases hwn : w n with
      | error => exact absurd hwn (hpages n (by simp))
      | empty =>
        by_cases hbc : st.baselineComplete = false
        · by_cases hc : 1 ≤ st.consecEmpty
          · have hstep : seqPass cfg w (n :: rest) st
                = { st with pagesFetched := st.pagesFetched + 1,
                            consecEmpty := st.consecEmpty + 1,
                            emptyPages := st.emptyPages ++ [n],
                            recentFlags :=
                              dequeAppend cfg.errorBailWindow st.recentFlags false,
                            baselineComplete := true } := by
              rw [seqPass]
              simp [hb, hv, hwn, hbc, hc]
            rw [hstep]
            refine ⟨hb, dequeAppend_all_false _ _ hf, le_refl _, ?_⟩
            intro hcomp
            simp at hcomp
          · have hstep : seqPass cfg w (n :: rest) st
                = seqPass cfg w rest (maybeCooldown cfg
                    { st with pagesFetched := st.pagesFetched + 1,
                              consecEmpty := st.consecEmpty + 1,
                              emptyPages := st.emptyPages ++ [n],
                              recentFlags :=
                                dequeAppend cfg.errorBailWindow st.recentFlags false }) := by
              rw [seqPass]
              simp [hb, hv, hwn, hbc, hc]
            rw [hstep, maybeCooldown_eq_self cfg _
              (stormCondB_false_of_all_false cfg _ hth (dequeAppend_all_false _ _ hf))]
            obtain ⟨ih1, ih2, ih3, ih4⟩ := seqPass_no_error cfg w hth rest
              { st with pagesFetched := st.pagesFetched + 1,
                        consecEmpty := st.consecEmpty + 1,
                        emptyPages := st.emptyPages ++ [n],
                        recentFlags :=
                          dequeAppend cfg.errorBailWindow st.recentFlags false }
              hrest hb (dequeAppend_all_false _ _ hf)
            refine ⟨ih1, ih2, ih3, ?_⟩
            intro hcomp m hm hmv rows hok
            rcases List.mem_cons.mp hm with rfl | hm'
            · rw [hok] at hwn
              cases hwn
            · exact ih4 hcomp m hm' hmv rows hok
        · have hbc' : st.baselineComplete = true := by
            cases hx : st.baselineComplete
            · exact absurd hx hbc
            · rfl
          have hstep : seqPass cfg w (n :: rest) st
              = seqPass cfg w rest (maybeCooldown cfg
                  { st with pagesFetched := st.pagesFetched + 1,
                            emptyPages := st.emptyPages ++ [n],
                            recentFlags :=
                              dequeAppend cfg.errorBailWindow st.recentFlags false }) := by
            rw [seqPass]
            simp [hb, hv, hwn, hbc']
          rw [hstep, maybeCooldown_eq_self cfg _
            (stormCondB_false_of_all_false cfg _ hth (dequeAppend_all_false _ _ hf))]
          obtain ⟨ih1, ih2, ih3, ih4⟩ := seqPass_no_error cfg w hth rest
            { st with pagesFetched := st.pagesFetched + 1,
                      emptyPages := st.emptyPages ++ [n],
                      recentFlags :=
                        dequeAppend cfg.errorBailWindow st.recentFlags false }
            hrest hb (dequeAppend_all_false _ _ hf)
          refine ⟨ih1, ih2, ih3, ?_⟩
          intro hcomp m hm hmv rows hok
          rcases List.mem_cons.mp hm with rfl | hm'
          · rw [hok] at hwn
            cases hwn
          · exact ih4 hcomp m hm' hmv rows hok
      | ok rows' =>
        cases hbc : st.baselineComplete with
        | false =>
          have hstep : seqPass cfg w (n :: rest) st
              = seqPass cfg w rest (maybeCooldown cfg
                  { st with pagesFetched := st.pagesFetched + 1,
                            totalScanned := st.totalScanned + rows',
                            consecEmpty := 0,
                            recentFlags :=
                              dequeAppend cfg.errorBailWindow st.recentFlags false,
                            seqLastScanned := max st.seqLastScanned n }) := by
            rw [seqPass]
            simp [hb, hv, hwn, hbc]
          rw [hstep, maybeCooldown_eq_self cfg _
            (stormCondB_false_of_all_false cfg _ hth (dequeAppend_all_false _ _ hf))]
          obtain ⟨ih1, ih2, ih3, ih4⟩ := seqPass_no_error cfg w hth rest
            { st with pagesFetched := st.pagesFetched + 1,
                      totalScanned := st.totalScanned + rows',
                      consecEmpty := 0,
                      recentFlags :=
                        dequeAppend cfg.errorBailWindow st.recentFlags false,
                      seqLastScanned := max st.seqLastScanned n }
            hrest hb (dequeAppend_all_false _ _ hf)
          refine ⟨ih1, ih2, le_trans (le_max_left _ _) ih3, ?_⟩
          intro hcomp m hm hmv rows2 hok
          rcases List.mem_cons.mp hm with rfl | hm'
          · exact le_trans (le_max_right _ _) ih3
          · exact ih4 hcomp m hm' hmv rows2 hok
        | true =>
          have hstep : seqPass cfg w (n :: rest) st
              = seqPass cfg w rest (maybeCooldown cfg
                  { st with pagesFetched := st.pagesFetched + 1,
                            totalScanned := st.totalScanned + rows',
                            recentFlags :=
                              dequeAppend cfg.errorBailWindow st.recentFlags false,
                            seqLastScanned := max st.seqLastScanned n }) := by
            rw [seqPass]
            simp [hb, hv, hwn, hbc]
          rw [hstep, maybeCooldown_eq_self cfg _
            (stormCondB_false_of_all_false cfg _ hth (dequeAppend_all_false _ _ hf))]
          obtain ⟨ih1, ih2, ih3, ih4⟩ := seqPass_no_error cfg w hth rest
            { st with pagesFetched := st.pagesFetched + 1,
                      totalScanned := st.totalScanned + rows',
                      recentFlags :=
                        dequeAppend cfg.errorBailWindow st.recentFlags false,
                      seqLastScanned := max st.seqLastScanned n }
            hrest hb (dequeAppend_all_false _ _ hf)
          refine ⟨ih1, ih2, le_trans (le_max_left _ _) ih3, ?_⟩
          intro hcomp m hm hmv rows2 hok
          rcases List.mem_cons.mp hm with rfl | hm'
          · exact le_trans (le_max_right _ _) ih3
          · exact ih4 hcomp m hm' hmv rows2 hok

/-- With an empty loaded failed-page queue, a run is just the sequential
pass from the fresh loop state. -/
theorem runFinalState_empty_queue (cfg : Config) (w : Nat → PageStatus)
    (cursor : Cursor) :
    runFinalState cfg w cursor []
      = seqPass cfg w
          (List.range' (seqBounds cfg cursor).1
            ((seqBounds cfg cursor).2 + 1 - (seqBounds cfg cursor).1))
          { pagesFetched := 0, totalScanned := 0, consecEmpty := 0,
            errorPages := [], emptyPages := [], recentFlags := [],
            seqLastScanned := (seqBounds cfg cursor).1 - 1,
            stormCooldownsUsed := 0, queue := [],
            baselineComplete := cursor.baselineComplete,
            bailed := false, visited := [] } := rfl

/-- Claim C5 (amended): after any run (with a positive page ceiling) the
persisted cursor's `next_page` never exceeds the ceiling; and a
Building-mode run with an empty failed-page queue, a positive breaker
threshold, an in-range loaded `next_page`, no `Error` outcome in the
sequential window and at least one `Ok` page in the window either
triggers baseline completion or strictly increases the persisted
`next_page`.  The claim's unconditional strict increase is refuted by the
counterexample (a window whose only page is `Empty` neither completes nor
advances). -/
theorem C5_cursor_bound_monotonicity (cfg : Config) (w : Nat → PageStatus)
    (cursor : Cursor) (rawQueue : List FailedEntry)
    (hceil : 1 ≤ cfg.targetMaxPage) :
    (runOnce cfg w cursor rawQueue).savedCursor.nextPage ≤ cfg.targetMaxPage ∧
    (cursor.baselineComplete = false → rawQueue = [] →
      0 < cfg.errorBailThreshold →
      1 ≤ cursor.nextPage → cursor.nextPage ≤ cfg.targetMaxPage →
      (∀ n, (runOnce cfg w cursor rawQueue).seqStart ≤ n →
        n ≤ (runOnce cfg w cursor rawQueue).seqEnd → w n ≠ .error) →
      (∃ n rows, (runOnce cfg w cursor rawQueue).seqStart ≤ n ∧
        n ≤ (runOnce cfg w cursor rawQueue).seqEnd ∧ w n = .ok rows) →
      ((runOnce cfg w cursor rawQueue).savedCursor.baselineComplete = true ∨
        cursor.nextPage < (runOnce cfg w cursor rawQueue).savedCursor.nextPage)) := by
  constructor
  · rw [runOnce_savedCursor]
    exact nextCursor_nextPage_le cfg cursor.nextPage _ _ hceil
  · intro hbc hq hth hnp1 hnpc herr hex
    subst hq
    have hsnp : (seqBounds cfg cursor).1 = cursor.nextPage := by
      simp [seqBounds, hbc]
      omega
    have hpages : ∀ m ∈ List.range' (seqBounds cfg cursor).1
        ((seqBounds cfg cursor).2 + 1 - (seqBounds cfg cursor).1), w m ≠ .error := by
      intro m hm
      rw [List.mem_range'_1] at hm
      apply herr
      · rw [runOnce_seqStart]
        exact hm.1
      · rw [runOnce_seqEnd]
        omega
    obtain ⟨h1, h2, h3, h4⟩ := seqPass_no_error cfg w hth
      (List.range' (seqBounds cfg cursor).1
        ((seqBounds cfg cursor).2 + 1 - (seqBounds cfg cursor).1))
      { pagesFetched := 0, totalScanned := 0, consecEmpty := 0,
        errorPages := [], emptyPages := [], recentFlags := [],
        seqLastScanned := (seqBounds cfg cursor).1 - 1,
        stormCooldownsUsed := 0, queue := [],
        baselineComplete := cursor.baselineComplete,
        bailed := false, visited := [] }
      hpages rfl (by intro f hf; cases hf)
    rw [← runFinalState_empty_queue cfg w cursor] at h4
    cases hcomp : (runFinalState cfg w cursor []).baselineComplete with
    | true =>
      left
      rw [runOnce_savedCursor, nextCursor]
      simp [hcomp]
    | false =>
      obtain ⟨n, rows, hn1, hn2, hok⟩ := hex
      rw [runOnce_seqStart] at hn1
      rw [runOnce_seqEnd] at hn2
      have hmem : n ∈ List.range' (seqBounds cfg cursor).1
          ((seqBounds cfg cursor).2 + 1 - (seqBounds cfg cursor).1) := by
        rw [List.mem_range'_1]
        omega
      have hles := h4 hcomp n hmem (by simp) rows hok
      have hsle : (seqBounds cfg cursor).1
          ≤ (runFinalState cfg w cursor []).seqLastScanned := le_trans hn1 hles
      rw [runOnce_savedCursor, nextCursor]
      simp only [hcomp, Bool.not_false, if_true]
      rw [if_pos hsle]
      by_cases hcl : cfg.targetMaxPage
          < (runFinalState cfg w cursor []).seqLastScanned + 1
      · rw [if_pos hcl]
        left
        rfl
      · rw [if_neg hcl]
        right
        show cursor.nextPage < (runFinalState cfg w cursor []).seqLastScanned + 1
        omega

/-- The configuration of the C5 witness: ceiling 10, three pages per run,
breaker threshold 1. -/
def c5wcfg : Config :=
  { targetMaxPage := 10, pagesPerRun := 3, errorBailThreshold := 1 }

/-- The all-data world of the C5 witness. -/
def c5ww : Nat → PageStatus := fun _ => .ok 1

/-- Witness for C5: a Building run from page 5 over an all-`Ok` window
either completes the baseline or strictly advances the cursor (here it
advances to 8). -/
theorem C5_cursor_bound_monotonicity_witness :
    (runOnce c5wcfg c5ww ⟨5, false⟩ []).savedCursor.baselineComplete = true ∨
      (5 : Nat) < (runOnce c5wcfg c5ww ⟨5, false⟩ []).savedCursor.nextPage := by
  have h := C5_cursor_bound_monotonicity c5wcfg c5ww ⟨5, false⟩ [] (by decide)
  exact h.2 rfl rfl zero_lt_one (by decide) (by decide)
    (fun n _ _ => by simp [c5ww])
    ⟨5, 1, by decide, by decide, rfl⟩

/-- The configuration of the C5 counterexample: a one-page window. -/
def c5xcfg : Config := { targetMaxPage := 10, pagesPerRun := 1 }

/-- The C5 counterexample world: page 5 is empty, everything else holds
one record (no page errors). -/
def c5xw : Nat → PageStatus := fun n => if n = 5 then .empty else .ok 1

/-- Counterexample to C5 as stated: a Building-mode run whose one-page
sequential window `[5, 5]` returns a single `Empty` (no errors anywhere)
neither triggers baseline completion nor advances — the persisted cursor
is unchanged at `{next_page: 5, baseline_complete: false}`, so
`next_page` does not strictly increase until completion. -/
theorem C5_counterexample :
    c5xw 5 = PageStatus.empty ∧
    (runOnce c5xcfg c5xw ⟨5, false⟩ []).savedCursor
      = ⟨5, false⟩ := by decide

end BisTracker
